/-
Verification of the MindPath note-store / analysis-orchestrator core.

This file gives a shallow embedding, in Lean 4, of the parts of the MindPath
server that carry state-dependent behaviour:

* `src/database/database.js` — the SQLite-backed note store and analysis-log
  store (`dbOperations`).  The database is modelled as an explicit `DB` state
  record; each operation is a pure function on it.  SQL `ORDER BY last_updated
  DESC` is modelled by sorting the filtered rows with `List.insertionSort`
  under the "newer or equal first" relation; `INSERT` appends a row and draws
  the next AUTOINCREMENT id; timestamps (ISO-8601 strings in the source, which
  compare lexicographically in date order) are modelled as naturals drawn from
  a strictly increasing logical clock `DB.now`.
* `src/server/server.js` — the request handlers for `POST /api/notes`
  (including the 10th-note automatic-analysis trigger and the background
  `setImmediate` task), `PUT`/`PATCH /api/notes/:id`, and
  `POST /api/analyze-notes`.  The external Gemini analyzer is a parameter
  `analyzer : List Note → AnalyzerOutcome`; handlers return their HTTP status,
  the new store state, and bookkeeping flags (whether the analyzer was
  invoked, how many background tasks were scheduled).
* `src/server/geminiService.js` — the post-processing of the provider's raw
  output in `analyzeNotesAndGenerateResources`.  The network call and
  `JSON.parse` are opaque; they enter as parameters (`GeminiRaw`, an abstract
  `parse` function).  The validation / fallback / per-resource defaulting
  logic after them is embedded faithfully, with JavaScript string falsiness
  (`undefined`, `null`, `""`) modelled by `Option String` where `some ""`
  also counts as falsy.
-/
import Mathlib

namespace MindPath

/-! ### Data model (tables `notes` and `analysis_logs`) -/

/-- A row of the `notes` table (`database.js`, `createNotesTableQuery`). -/
structure Note where
  note_id : Nat
  user_id : String
  title : String
  content : String
  last_updated : Nat
deriving Repr, DecidableEq

/-- One `{id, title}` element of the serialized `notes_analyzed` snapshot. -/
structure NoteRef where
  id : Nat
  title : String
deriving Repr, DecidableEq

/-- A normalized mental-health resource as produced by
`analyzeNotesAndGenerateResources` (`geminiService.js`). -/
structure Resource where
  title : String
  description : String
  type : String
  url : Option String
deriving Repr, DecidableEq

/-- The structured analyzer result (`analysis` / `resources` /
`recommendations`), i.e. the `data` field of a successful Gemini call. -/
structure AnalysisData where
  analysis : String
  resources : List Resource
  recommendations : String
deriving Repr, DecidableEq

/-- A row of the `analysis_logs` table.  The source stores `notes_analyzed`
and `generated_resources` as JSON strings; since `JSON.stringify` is injective
on these shapes and the server parses them back before serving, they are
modelled by their structured values. -/
structure AnalysisLog where
  log_id : Nat
  user_id : String
  analysis_type : String
  notes_analyzed : List NoteRef
  generated_resources : AnalysisData
  created_at : Nat
  trigger_type : String
deriving Repr, DecidableEq

/-- The persistent store: both tables, the next AUTOINCREMENT id of each, and
the logical clock producing `getCurrentTimestamp()` values. -/
structure DB where
  notes : List Note
  nextNoteId : Nat
  logs : List AnalysisLog
  nextLogId : Nat
  now : Nat
deriving Repr, DecidableEq

/-- A fresh store: empty tables, AUTOINCREMENT counters at 1. -/
def DB.empty : DB := ⟨[], 1, [], 1, 0⟩

/-- The handled business-logic error of the store layer
(`[HANDLED ERROR] Note not found`). -/
inductive DbError where
  | notFound
deriving Repr, DecidableEq

/-- `title.length + content.length`, the character weight used by
`getLatestNotesForAnalysis`. -/
def noteChars (n : Note) : Nat := n.title.length + n.content.length

/-- Summed character weight of a batch. -/
def sumChars (l : List Note) : Nat := (l.map noteChars).sum

/-- The `ORDER BY last_updated DESC` relation: `a` may come before `b` when
`a` is at least as recent. -/
def newerEq (a b : Note) : Prop := b.last_updated ≤ a.last_updated

instance : DecidableRel newerEq := fun a b => Nat.decLe b.last_updated a.last_updated

instance : IsTotal Note newerEq :=
  ⟨fun a b => (Nat.le_total b.last_updated a.last_updated).imp id id⟩

instance : IsTrans Note newerEq := ⟨fun _ _ _ h1 h2 => Nat.le_trans h2 h1⟩

/-! ### Store operations (`dbOperations` in `database.js`) -/

/-- `createNote(userId, title, content)`: INSERT a row with a fresh id and the
current timestamp; resolve with the created row. -/
def createNote (db : DB) (userId title content : String) : Note × DB :=
  let n : Note := ⟨db.nextNoteId, userId, title, content, db.now⟩
  (n, { db with notes := db.notes ++ [n], nextNoteId := db.nextNoteId + 1, now := db.now + 1 })

/-- The row predicate of `WHERE note_id = ? AND user_id = ?`. -/
def noteMatches (id : Nat) (userId : String) (n : Note) : Bool :=
  n.note_id == id && n.user_id == userId

/-- `getAllNotes(userId)`: `SELECT * FROM notes WHERE user_id = ? ORDER BY
last_updated DESC`. -/
def getAllNotes (db : DB) (userId : String) : List Note :=
  List.insertionSort newerEq (db.notes.filter (fun n => n.user_id == userId))

/-- `getNoteById(id, userId)`: the first row matching both id and owner, or
the handled not-found error. -/
def getNoteById (db : DB) (id : Nat) (userId : String) : Except DbError Note :=
  match db.notes.find? (noteMatches id userId) with
  | some n => .ok n
  | none => .error .notFound

/-- `updateNote(id, userId, title, content)`: UPDATE title, content and
timestamp of the matching row; not-found when `this.changes === 0`. -/
def updateNote (db : DB) (id : Nat) (userId title content : String) :
    Except DbError (Note × DB) :=
  if db.notes.any (noteMatches id userId) then
    .ok (⟨id, userId, title, content, db.now⟩,
      { db with
          notes := db.notes.map (fun n =>
            if noteMatches id userId n then
              ⟨n.note_id, n.user_id, title, content, db.now⟩
            else n),
          now := db.now + 1 })
  else .error .notFound

/-- `deleteNote(id, userId)`: DELETE the matching row; not-found when
`this.changes === 0`. -/
def deleteNote (db : DB) (id : Nat) (userId : String) : Except DbError DB :=
  if db.notes.any (noteMatches id userId) then
    .ok { db with notes := db.notes.filter (fun n => !(noteMatches id userId n)) }
  else .error .notFound

/-- `createAnalysisLog(userId, analysisType, notesAnalyzed,
generatedResources, triggerType)`: INSERT an analysis-log row with fresh id
and current timestamp. -/
def createAnalysisLog (db : DB) (userId analysisType : String)
    (notesAnalyzed : List NoteRef) (generatedResources : AnalysisData)
    (triggerType : String) : AnalysisLog × DB :=
  let log : AnalysisLog :=
    ⟨db.nextLogId, userId, analysisType, notesAnalyzed, generatedResources, db.now, triggerType⟩
  (log, { db with logs := db.logs ++ [log], nextLogId := db.nextLogId + 1, now := db.now + 1 })

/-- The character-budget loop of `getLatestNotesForAnalysis`: keep a note when
the running total plus its weight stays within 16,000 characters, otherwise
`break`. -/
def trimLoop : List Note → Nat → List Note
  | [], _ => []
  | n :: rest, total =>
    if total + noteChars n ≤ 16000 then n :: trimLoop rest (total + noteChars n)
    else []

/-- `getLatestNotesForAnalysis(userId)`: the newest-first `LIMIT 10` query
followed by the cumulative character trim. -/
def getLatestNotesForAnalysis (db : DB) (userId : String) : List Note :=
  trimLoop ((getAllNotes db userId).take 10) 0

/-! ### Gemini service post-processing (`geminiService.js`) -/

/-- The outcome of the raw provider call `this.model.generateContent(prompt)`:
either the call threw (outer `catch`) or it returned response text. -/
inductive GeminiRaw where
  | apiError (msg : String)
  | apiText (text : String)
deriving Repr, DecidableEq

/-- A raw resource object as found in the parsed JSON; each field may be
absent (or `null`), modelled as `none`. -/
structure RawResource where
  title : Option String
  description : Option String
  type : Option String
  url : Option String
deriving Repr, DecidableEq

/-- The `resources` field of the parsed JSON: a JSON array of raw resources,
or some other truthy non-array value (which `Array.isArray` later rejects).
A falsy/absent field is represented by `Option.none` at the use site. -/
inductive ResourcesField where
  | arr (rs : List RawResource)
  | nonArrayTruthy
deriving Repr, DecidableEq

/-- The result of `JSON.parse` on the cleaned response text, with the three
top-level fields the validator inspects.  String-valued fields are assumed;
`none` stands for an absent/`null` field. -/
structure ParsedResponse where
  analysis : Option String
  resources : Option ResourcesField
  recommendations : Option String
deriving Repr, DecidableEq

/-- JavaScript falsiness of an optional string field: absent, `null`, or the
empty string. -/
def strFalsy : Option String → Bool
  | none => true
  | some s => s.isEmpty

/-- The `value || default` idiom on an optional string field. -/
def strOr (v : Option String) (d : String) : String :=
  match v with
  | some s => if s.isEmpty then d else s
  | none => d

/-- Per-resource defaulting: `resource.title || 'Untitled Resource'` etc.;
`resource.url || null` maps a falsy url back to `null`. -/
def normalizeResource (r : RawResource) : Resource :=
  { title := strOr r.title "Untitled Resource"
    description := strOr r.description "No description available"
    type := strOr r.type "tool"
    url := match r.url with
      | some s => if s.isEmpty then none else some s
      | none => none }

/-- `Array.isArray(parsedResponse.resources) ? resources : []`. -/
def resourcesArray : Option ResourcesField → List RawResource
  | some (.arr rs) => rs
  | some .nonArrayTruthy => []
  | none => []

/-- The analyzer's result object: `{success: true, data}` or
`{success: false, error}`. -/
inductive AnalyzerOutcome where
  | success (data : AnalysisData)
  | failure (err : String)
deriving Repr, DecidableEq

/-- Is the outcome the success variant? -/
def AnalyzerOutcome.isSuccess : AnalyzerOutcome → Bool
  | .success _ => true
  | .failure _ => false

/-- The structured fallback built when JSON parsing (or the structure check)
fails: the raw response text is wrapped as a single `analysis`-type resource
and the call is still reported as a success. -/
def fallbackData (text : String) : AnalysisData :=
  { analysis := "AI analysis completed successfully. The response format was unexpected, but the analysis was generated."
    resources := [{ title := "AI Analysis Results"
                    description := text
                    type := "analysis"
                    url := none }]
    recommendations := "Please review the analysis above for insights and recommendations. The AI has provided valuable insights about your journal entries." }

/-- `parsedResponse` fails the structure check when any of the three required
fields is falsy (`!parsedResponse.analysis || !parsedResponse.resources ||
!parsedResponse.recommendations`); the thrown error is caught by the inner
`catch`, which returns the fallback success. -/
def invalidStructure (p : ParsedResponse) : Bool :=
  strFalsy p.analysis || p.resources.isNone || strFalsy p.recommendations

/-- `analyzeNotesAndGenerateResources`, shallowly embedded from the point the
provider responds.  `raw` is the outcome of the network call on the prompt
built from the notes; `parse` abstracts markdown-fence cleaning plus
`JSON.parse` (`none` = parse threw).  Only a thrown provider call reaches the
outer `catch` and yields `success: false`; unparseable or structurally
invalid text is converted to the fallback success. -/
def analyzeNotesAndGenerateResources (raw : GeminiRaw)
    (parse : String → Option ParsedResponse) : AnalyzerOutcome :=
  match raw with
  | .apiError msg => .failure msg
  | .apiText text =>
    match parse text with
    | none => .success (fallbackData text)
    | some p =>
      if invalidStructure p then .success (fallbackData text)
      else
        .success
          { analysis := (p.analysis).getD ""
            resources := (resourcesArray p.resources).map normalizeResource
            recommendations := (p.recommendations).getD "" }

/-! ### Server handlers (`server.js`) -/

/-- The `{id, title}` snapshot persisted in `notes_analyzed`
(`notes.map(note => ({id: note.note_id, title: note.title}))`). -/
def notesSnapshot (notes : List Note) : List NoteRef :=
  notes.map (fun n => ⟨n.note_id, n.title⟩)

/-- Result of the `POST /api/notes` handler: HTTP status, the new store
state, how many background analysis tasks were scheduled via `setImmediate`,
and the `shouldTriggerAnalysis` response field. -/
structure CreateResult where
  status : Nat
  db : DB
  scheduledAuto : Nat
  shouldTrigger : Bool
deriving Repr, DecidableEq

/-- The `POST /api/notes` handler.  `geminiAvailable` is the truthiness of
`geminiService`.  Body fields are strings here (the `typeof` checks pass);
the `!title || !content` check rejects empty strings.  After a successful
create it recounts the owner's notes and, exactly when the count is 10 and
the service is available, schedules one background analysis task. -/
def postNotes (db : DB) (geminiAvailable : Bool) (userId title content : String) :
    CreateResult :=
  if title.isEmpty || content.isEmpty then ⟨400, db, 0, false⟩
  else
    let db1 := (createNote db userId title content).2
    let trig := (getAllNotes db1 userId).length == 10 && geminiAvailable
    ⟨201, db1, if trig then 1 else 0, trig⟩

/-- A sequence of `POST /api/notes` calls by one owner; returns the final
store state and the total number of automatic analysis tasks scheduled. -/
def createSeq (db : DB) (geminiAvailable : Bool) (userId : String) :
    List (String × String) → DB × Nat
  | [] => (db, 0)
  | (t, c) :: rest =>
    let r := postNotes db geminiAvailable userId t c
    let s := createSeq r.db geminiAvailable userId rest
    (s.1, r.scheduledAuto + s.2)

/-- The owner's current total note count (what `getAllNotes(userId).length`
measures). -/
def noteCount (db : DB) (userId : String) : Nat :=
  (db.notes.filter (fun n => n.user_id == userId)).length

/-- The background task scheduled with `setImmediate` in the `POST
/api/notes` handler: fetch the latest batch, invoke the analyzer, and persist
an `'automatic'` log row only on success; any failure is only logged to the
console, leaving the store unchanged. -/
def autoAnalysisTask (db : DB) (userId : String)
    (analyzer : List Note → AnalyzerOutcome) : DB :=
  let notes := getLatestNotesForAnalysis db userId
  match analyzer notes with
  | .success data =>
    (createAnalysisLog db userId "mental_health_analysis" (notesSnapshot notes) data "automatic").2
  | .failure _ => db

/-- Result of the `POST /api/analyze-notes` handler: HTTP status, the new
store state, whether the analyzer was invoked, and the returned log id. -/
structure AnalyzeResult where
  status : Nat
  db : DB
  invoked : Bool
  logId : Option Nat
deriving Repr, DecidableEq

/-- The `POST /api/analyze-notes` handler ("manual path").  `triggerType` is
the optional body field (`const { triggerType = 'manual' } = req.body`); it
is persisted verbatim, defaulting to `'manual'` only when absent. -/
def postAnalyzeNotes (db : DB) (geminiAvailable : Bool) (userId : String)
    (triggerType : Option String) (analyzer : List Note → AnalyzerOutcome) :
    AnalyzeResult :=
  if !geminiAvailable then ⟨503, db, false, none⟩
  else
    let tt := triggerType.getD "manual"
    let notes := getLatestNotesForAnalysis db userId
    if notes.length == 0 then ⟨400, db, false, none⟩
    else
      match analyzer notes with
      | .failure _ => ⟨500, db, true, none⟩
      | .success data =>
        let r := createAnalysisLog db userId "mental_health_analysis" (notesSnapshot notes) data tt
        ⟨200, r.2, true, some r.1.log_id⟩

/-- A JSON body field value: a string, or some non-string value.  `Option
BodyVal` at a use site distinguishes an absent (`undefined`) field. -/
inductive BodyVal where
  | str (s : String)
  | nonString
deriving Repr, DecidableEq

/-- Result of the `PUT`/`PATCH /api/notes/:id` handlers: HTTP status and the
new store state. -/
structure UpdateResult where
  status : Nat
  db : DB
deriving Repr, DecidableEq

/-- The `PUT /api/notes/:id` handler for string body fields (id already
parsed and positive): `!title || !content` rejects empty strings with 400
before any store mutation. -/
def putNotes (db : DB) (userId : String) (id : Nat) (title content : String) :
    UpdateResult :=
  if title.isEmpty || content.isEmpty then ⟨400, db⟩
  else
    match updateNote db id userId title content with
    | .ok r => ⟨200, r.2⟩
    | .error _ => ⟨404, db⟩

/-- The `PATCH /api/notes/:id` handler (id already parsed and positive):
fetch the existing note, substitute existing values for absent fields, check
only that supplied fields are strings (empty strings pass), and update. -/
def patchNotes (db : DB) (userId : String) (id : Nat)
    (title content : Option BodyVal) : UpdateResult :=
  match getNoteById db id userId with
  | .error _ => ⟨404, db⟩
  | .ok existing =>
    if title == some .nonString then ⟨400, db⟩
    else if content == some .nonString then ⟨400, db⟩
    else
      let newTitle := match title with
        | some (.str s) => s
        | _ => existing.title
      let newContent := match content with
        | some (.str s) => s
        | _ => existing.content
      match updateNote db id userId newTitle newContent with
      | .ok r => ⟨200, r.2⟩
      | .error _ => ⟨404, db⟩

/-! ### Store invariant and auxiliary notions -/

/-- Well-formedness of a reachable store state: every row's timestamp is
older than the current clock, and every row's id is below the next
AUTOINCREMENT value.  Both hold of `DB.empty` and are preserved by every
operation. -/
def DBwf (db : DB) : Prop :=
  (∀ n ∈ db.notes, n.last_updated < db.now) ∧ (∀ n ∈ db.notes, n.note_id < db.nextNoteId)

instance (db : DB) : Decidable (DBwf db) := by unfold DBwf; infer_instance

/-- `p` is an initial segment of `l`. -/
def prefixOf {α : Type u} (p l : List α) : Prop := ∃ t, p ++ t = l

/-! ### Concrete fixtures used by the witness theorems -/

/-- A store holding one short note (id 1, owner `"u"`). -/
def exDb1 : DB := (createNote DB.empty "u" "hello" "world").2

/-- A store holding `k` short notes for one owner. -/
def seedDb (uid : String) : Nat → DB
  | 0 => DB.empty
  | k + 1 => (createNote (seedDb uid k) uid "t" "c").2

/-- `exDb1` with a second, newer note (id 2). -/
def exDb2 : DB := (createNote exDb1 "u" "second" "note").2

/-- The state of `exDb2` after `updateNote 1 "u" "X" "Y"`. -/
def exDb2upd : DB :=
  ⟨[⟨1, "u", "X", "Y", 2⟩, ⟨2, "u", "second", "note", 1⟩], 3, [], 1, 3⟩

/-- A sample structured analyzer result. -/
def exData : AnalysisData := ⟨"summary", [], "rest well"⟩

/-- An analyzer that always succeeds with `exData`. -/
def okAnalyzer : List Note → AnalyzerOutcome := fun _ => .success exData

/-- An analyzer that always fails. -/
def failAnalyzer : List Note → AnalyzerOutcome := fun _ => .failure "boom"

/-! ### Helper lemmas -/

theorem trimLoop_prefixOf (l : List Note) (t : Nat) : prefixOf (trimLoop l t) l := by
  induction l generalizing t with
  | nil => exact ⟨[], rfl⟩
  | cons n rest ih =>
    by_cases h : t + noteChars n ≤ 16000
    · obtain ⟨tl, htl⟩ := ih (t + noteChars n)
      exact ⟨tl, by simp [trimLoop, h, htl]⟩
    · exact ⟨n :: rest, by simp [trimLoop, h]⟩

theorem prefixOf_length_le {α : Type u} {p l : List α} (h : prefixOf p l) :
    p.length ≤ l.length := by
  obtain ⟨t, rfl⟩ := h
  simp

theorem take_prefixOf {α : Type u} (l : List α) (n : Nat) : prefixOf (l.take n) l :=
  ⟨l.drop n, List.take_append_drop n l⟩

theorem prefixOf_trans {α : Type u} {a b c : List α} (h1 : prefixOf a b)
    (h2 : prefixOf b c) : prefixOf a c := by
  obtain ⟨t1, rfl⟩ := h1
  obtain ⟨t2, rfl⟩ := h2
  exact ⟨t1 ++ t2, by simp⟩

theorem trimLoop_sum (l : List Note) (t : Nat) (h : t ≤ 16000) :
    t + sumChars (trimLoop l t) ≤ 16000 := by
  induction l generalizing t with
  | nil => simpa [trimLoop, sumChars]
  | cons n rest ih =>
    by_cases hc : t + noteChars n ≤ 16000
    · have := ih (t + noteChars n) hc
      simp only [trimLoop, hc, if_true, sumChars, List.map_cons, List.sum_cons] at *
      omega
    · simpa [trimLoop, hc, sumChars]

theorem trimLoop_maximal (p l : List Note) (t : Nat) (hp : prefixOf p l)
    (hs : t + sumChars p ≤ 16000) : prefixOf p (trimLoop l t) := by
  induction p generalizing l t with
  | nil => exact ⟨trimLoop l t, rfl⟩
  | cons x p2 ih =>
    obtain ⟨tl, rfl⟩ := hp
    have hsum : sumChars (x :: p2) = noteChars x + sumChars p2 := by
      simp [sumChars]
    have hx : t + noteChars x ≤ 16000 := by omega
    have hrec := ih (p2 ++ tl) (t + noteChars x) ⟨tl, rfl⟩ (by omega)
    obtain ⟨u, hu⟩ := hrec
    exact ⟨u, by simp [trimLoop, hx, hu]⟩

/-! ### C1 — batch selection -/

/-- C1.  Batch selection: for every owner and store state the batch produced
by `getLatestNotesForAnalysis` is a prefix of the owner's newest-first note
list, has at most 10 notes, its summed title+content length never exceeds
16,000, every prefix of the 10-note window that fits within 16,000
characters is included (so a note whose addition keeps the running sum at or
below 16,000 is kept, and the first note that would push it over is dropped
together with everything after it), and an oversized most-recent note makes
the batch empty. -/
theorem batch_selection_spec (db : DB) (uid : String) :
    (getLatestNotesForAnalysis db uid).length ≤ 10 ∧
    prefixOf (getLatestNotesForAnalysis db uid) (getAllNotes db uid) ∧
    sumChars (getLatestNotesForAnalysis db uid) ≤ 16000 ∧
    (∀ p, prefixOf p ((getAllNotes db uid).take 10) → sumChars p ≤ 16000 →
      prefixOf p (getLatestNotesForAnalysis db uid)) ∧
    (∀ n rest, getAllNotes db uid = n :: rest → 16000 < noteChars n →
      getLatestNotesForAnalysis db uid = []) := by
  refine ⟨?_, ?_, ?_, ?_, ?_⟩
  · have h1 := prefixOf_length_le (trimLoop_prefixOf ((getAllNotes db uid).take 10) 0)
    have h2 : ((getAllNotes db uid).take 10).length ≤ 10 := by
      simp [List.length_take]
    exact le_trans h1 h2
  · exact prefixOf_trans (trimLoop_prefixOf _ 0) (take_prefixOf _ 10)
  · have := trimLoop_sum ((getAllNotes db uid).take 10) 0 (by norm_num)
    simpa [getLatestNotesForAnalysis] using this
  · intro p hp hs
    exact trimLoop_maximal p _ 0 hp (by simpa)
  · intro n rest h hn
    unfold getLatestNotesForAnalysis
    rw [h]
    simp [trimLoop, Nat.not_le.mpr hn]

/-- Witness for C1 at the concrete one-note store `exDb1`. -/
theorem batch_selection_spec_witness :
    (getLatestNotesForAnalysis exDb1 "u").length ≤ 10 ∧
    sumChars (getLatestNotesForAnalysis exDb1 "u") ≤ 16000 ∧
    prefixOf ([] : List Note) (getLatestNotesForAnalysis exDb1 "u") :=
  ⟨(batch_selection_spec exDb1 "u").1, (batch_selection_spec exDb1 "u").2.2.1,
    (batch_selection_spec exDb1 "u").2.2.2.1 [] ⟨_, rfl⟩ (by simp [sumChars])⟩

theorem mem_getAllNotes {db : DB} {uid : String} {n : Note} :
    n ∈ getAllNotes db uid ↔ n ∈ db.notes ∧ n.user_id = uid := by
  simp [getAllNotes, List.mem_filter]

theorem length_getAllNotes (db : DB) (uid : String) :
    (getAllNotes db uid).length = noteCount db uid := by
  simp [getAllNotes, noteCount]

theorem noteCount_createNote (db : DB) (uid t c : String) :
    noteCount (createNote db uid t c).2 uid = noteCount db uid + 1 := by
  simp [noteCount, createNote, List.filter_append]

theorem postNotes_sched_of_ge (db : DB) (g : Bool) (uid t c : String)
    (h : 10 ≤ noteCount db uid) :
    (postNotes db g uid t c).scheduledAuto = 0 ∧
    10 ≤ noteCount (postNotes db g uid t c).db uid := by
  by_cases he : (t.isEmpty || c.isEmpty) = true
  · simp [postNotes, he, h]
  · have hlen : (getAllNotes (createNote db uid t c).2 uid).length = noteCount db uid + 1 := by
      rw [length_getAllNotes, noteCount_createNote]
    have hne : ((getAllNotes (createNote db uid t c).2 uid).length == 10) = false := by
      rw [hlen]
      simp only [beq_eq_false_iff_ne, ne_eq]
      omega
    refine ⟨?_, ?_⟩
    · simp [postNotes, he, hne]
    · have hdb : (postNotes db g uid t c).db = (createNote db uid t c).2 := by
        simp [postNotes, he]
      rw [hdb, noteCount_createNote]
      omega

theorem createSeq_sched_zero (g : Bool) (uid : String) (seq : List (String × String)) :
    ∀ db : DB, 10 ≤ noteCount db uid → (createSeq db g uid seq).2 = 0 := by
  induction seq with
  | nil => intro db _; rfl
  | cons pr rest ih =>
    intro db h
    obtain ⟨h0, h1⟩ := postNotes_sched_of_ge db g uid pr.1 pr.2 h
    simp [createSeq, h0, ih _ h1]

/-! ### C2 — one-shot automatic-analysis trigger -/

/-- C2.  Trigger policy: a note creation whose post-creation count for the
owner is exactly 10 (with the analyzer service available) schedules exactly
one background analysis task, and from any state where the owner already has
at least 10 notes, no sequence of further note creations ever schedules
another one — the trigger is a one-shot edge, not repeating. -/
theorem trigger_policy_one_shot :
    (∀ (db : DB) (uid t c : String), t.isEmpty = false → c.isEmpty = false →
      (getAllNotes (postNotes db true uid t c).db uid).length = 10 →
      (postNotes db true uid t c).scheduledAuto = 1) ∧
    (∀ (db : DB) (uid : String) (seq : List (String × String)),
      10 ≤ noteCount db uid → (createSeq db true uid seq).2 = 0) := by
  constructor
  · intro db uid t c ht hc h10
    simp only [postNotes, ht, hc, Bool.or_self, Bool.false_eq_true, if_false] at h10 ⊢
    simp [h10]
  · intro db uid seq h
    exact createSeq_sched_zero true uid seq db h

/-- Witness for C2: the 10th note for `"u"` schedules one task; two further
creations starting from a 10-note store schedule none. -/
theorem trigger_policy_one_shot_witness :
    (postNotes (seedDb "u" 9) true "u" "a" "b").scheduledAuto = 1 ∧
    (createSeq (seedDb "u" 10) true "u" [("x", "y"), ("z", "w")]).2 = 0 :=
  ⟨trigger_policy_one_shot.1 (seedDb "u" 9) "u" "a" "b" rfl rfl (by decide),
   trigger_policy_one_shot.2 (seedDb "u" 10) "u" [("x", "y"), ("z", "w")] (by decide)⟩

theorem postAnalyzeNotes_success (db : DB) (uid : String) (tt : Option String)
    (an : List Note → AnalyzerOutcome) (data : AnalysisData)
    (hne : getLatestNotesForAnalysis db uid ≠ [])
    (hs : an (getLatestNotesForAnalysis db uid) = .success data) :
    postAnalyzeNotes db true uid tt an =
      ⟨200,
       { db with
           logs := db.logs ++ [⟨db.nextLogId, uid, "mental_health_analysis",
             notesSnapshot (getLatestNotesForAnalysis db uid), data, db.now, tt.getD "manual"⟩],
           nextLogId := db.nextLogId + 1, now := db.now + 1 },
       true, some db.nextLogId⟩ := by
  have hlen : ((getLatestNotesForAnalysis db uid).length == 0) = false := by
    simp [List.length_eq_zero, hne]
  simp [postAnalyzeNotes, hlen, hs, createAnalysisLog]

theorem postAnalyzeNotes_failure (db : DB) (uid : String) (tt : Option String)
    (an : List Note → AnalyzerOutcome) (e : String)
    (hne : getLatestNotesForAnalysis db uid ≠ [])
    (hf : an (getLatestNotesForAnalysis db uid) = .failure e) :
    postAnalyzeNotes db true uid tt an = ⟨500, db, true, none⟩ := by
  have hlen : ((getLatestNotesForAnalysis db uid).length == 0) = false := by
    simp [List.length_eq_zero, hne]
  simp [postAnalyzeNotes, hlen, hf]

/-! ### C3 — log persistence per run outcome -/

/-- Counterexample to C3 as stated: a successful run on the manual path
(`POST /api/analyze-notes`) whose body carries `triggerType: "automatic"`
appends a row whose `trigger_type` is `"automatic"`, not `"manual"`. -/
theorem manual_run_not_always_manual :
    (postAnalyzeNotes exDb1 true "u" (some "automatic") okAnalyzer).status = 200 ∧
    (postAnalyzeNotes exDb1 true "u" (some "automatic") okAnalyzer).db.logs.map
        AnalysisLog.trigger_type ≠ ["manual"] := by
  constructor
  · rfl
  · decide

/-- C3 (amended).  Every run whose analyzer invocation succeeds appends
exactly one AnalysisLog row for the owner, carrying the run's trigger type —
the client-supplied `triggerType` (default `"manual"`) on the manual path and
`"automatic"` on the automatic path; every run whose analyzer invocation
fails appends zero rows, leaving the log state unchanged. -/
theorem analysis_log_persistence :
    (∀ (db : DB) (uid : String) (tt : Option String)
        (an : List Note → AnalyzerOutcome) (data : AnalysisData),
      getLatestNotesForAnalysis db uid ≠ [] →
      an (getLatestNotesForAnalysis db uid) = .success data →
      (postAnalyzeNotes db true uid tt an).db.logs
        = db.logs ++ [⟨db.nextLogId, uid, "mental_health_analysis",
            notesSnapshot (getLatestNotesForAnalysis db uid), data, db.now, tt.getD "manual"⟩]) ∧
    (∀ (db : DB) (uid : String) (tt : Option String)
        (an : List Note → AnalyzerOutcome) (e : String),
      an (getLatestNotesForAnalysis db uid) = .failure e →
      (postAnalyzeNotes db true uid tt an).db = db) ∧
    (∀ (db : DB) (uid : String) (an : List Note → AnalyzerOutcome) (data : AnalysisData),
      an (getLatestNotesForAnalysis db uid) = .success data →
      (autoAnalysisTask db uid an).logs
        = db.logs ++ [⟨db.nextLogId, uid, "mental_health_analysis",
            notesSnapshot (getLatestNotesForAnalysis db uid), data, db.now, "automatic"⟩]) ∧
    (∀ (db : DB) (uid : String) (an : List Note → AnalyzerOutcome) (e : String),
      an (getLatestNotesForAnalysis db uid) = .failure e →
      autoAnalysisTask db uid an = db) := by
  refine ⟨?_, ?_, ?_, ?_⟩
  · intro db uid tt an data hne hs
    rw [postAnalyzeNotes_success db uid tt an data hne hs]
  · intro db uid tt an e hf
    by_cases hne : getLatestNotesForAnalysis db uid = []
    · have hlen : ((getLatestNotesForAnalysis db uid).length == 0) = true := by
        simp [hne]
      simp [postAnalyzeNotes, hlen]
    · rw [postAnalyzeNotes_failure db uid tt an e hne hf]
  · intro db uid an data hs
    simp [autoAnalysisTask, hs, createAnalysisLog]
  · intro db uid an e hf
    simp [autoAnalysisTask, hf]

/-- Witness for C3 (amended) at the one-note store: an omitted `triggerType`
persists one `"manual"` row; a failing automatic task leaves the store
unchanged. -/
theorem analysis_log_persistence_witness :
    (postAnalyzeNotes exDb1 true "u" none okAnalyzer).db.logs
      = exDb1.logs ++ [⟨exDb1.nextLogId, "u", "mental_health_analysis",
          notesSnapshot (getLatestNotesForAnalysis exDb1 "u"), exData, exDb1.now, "manual"⟩] ∧
    autoAnalysisTask exDb1 "u" failAnalyzer = exDb1 :=
  ⟨analysis_log_persistence.1 exDb1 "u" none okAnalyzer exData (by decide) rfl,
   analysis_log_persistence.2.2.2 exDb1 "u" failAnalyzer "boom" rfl⟩

/-! ### C4 — empty batch rejected before invocation -/

/-- C4.  When the eligible batch is empty, the manual analysis request fails
with the no-notes 400 response before the analyzer is invoked, and the store
(in particular the analysis-log table) is unchanged. -/
theorem empty_batch_no_analysis (db : DB) (uid : String) (tt : Option String)
    (an : List Note → AnalyzerOutcome)
    (h : getLatestNotesForAnalysis db uid = []) :
    postAnalyzeNotes db true uid tt an = ⟨400, db, false, none⟩ := by
  simp [postAnalyzeNotes, h]

/-- Witness for C4 at the empty store. -/
theorem empty_batch_no_analysis_witness :
    postAnalyzeNotes DB.empty true "u" none okAnalyzer = ⟨400, DB.empty, false, none⟩ :=
  empty_batch_no_analysis DB.empty "u" none okAnalyzer rfl

/-! ### C10 — triggerType persisted verbatim -/

/-- C10.  The manual endpoint does not validate `triggerType`: whatever
string the request body supplies is persisted verbatim as the new row's
`trigger_type`, and an absent field defaults to `"manual"` — both are
instances of `tt.getD "manual"` below (e.g. `tt = some "automatic"` persists
`"automatic"`). -/
theorem trigger_type_verbatim (db : DB) (uid : String) (tt : Option String)
    (an : List Note → AnalyzerOutcome) (data : AnalysisData)
    (hne : getLatestNotesForAnalysis db uid ≠ [])
    (hs : an (getLatestNotesForAnalysis db uid) = .success data) :
    (postAnalyzeNotes db true uid tt an).db.logs
      = db.logs ++ [⟨db.nextLogId, uid, "mental_health_analysis",
          notesSnapshot (getLatestNotesForAnalysis db uid), data, db.now, tt.getD "manual"⟩] := by
  rw [postAnalyzeNotes_success db uid tt an data hne hs]

/-- Witness for C10: the out-of-vocabulary value `"weird"` is persisted
verbatim. -/
theorem trigger_type_verbatim_witness :
    (postAnalyzeNotes exDb1 true "u" (some "weird") okAnalyzer).db.logs
      = exDb1.logs ++ [⟨exDb1.nextLogId, "u", "mental_health_analysis",
          notesSnapshot (getLatestNotesForAnalysis exDb1 "u"), exData, exDb1.now, "weird"⟩] :=
  trigger_type_verbatim exDb1 "u" (some "weird") okAnalyzer exData (by decide) rfl

/-! ### C6 — analyzer failure vs unusable output -/

/-- Counterexample to C6 as stated: response text that fails JSON parsing
("unusable output") is reported as a success, not as a failure. -/
theorem unusable_output_treated_as_success :
    (analyzeNotesAndGenerateResources (.apiText "not json") (fun _ => none)).isSuccess
      = true := rfl

/-- C6 (amended).  A provider error (the external call throwing) is reported
as a failure distinct from success, and the manual handler surfaces it as the
500 failure response without touching the store; unparseable output, and
parsed output failing the structure check, are instead converted into the
fallback *success* result wrapping the raw text. -/
theorem analyzer_failure_reporting :
    (∀ (msg : String) (parse : String → Option ParsedResponse),
      analyzeNotesAndGenerateResources (.apiError msg) parse = .failure msg) ∧
    (∀ (text : String) (parse : String → Option ParsedResponse),
      parse text = none →
      analyzeNotesAndGenerateResources (.apiText text) parse
        = .success (fallbackData text)) ∧
    (∀ (text : String) (parse : String → Option ParsedResponse) (p : ParsedResponse),
      parse text = some p → invalidStructure p = true →
      analyzeNotesAndGenerateResources (.apiText text) parse
        = .success (fallbackData text)) ∧
    (∀ (db : DB) (uid : String) (tt : Option String)
        (an : List Note → AnalyzerOutcome) (e : String),
      getLatestNotesForAnalysis db uid ≠ [] →
      an (getLatestNotesForAnalysis db uid) = .failure e →
      (postAnalyzeNotes db true uid tt an).status = 500 ∧
      (postAnalyzeNotes db true uid tt an).db = db) := by
  refine ⟨?_, ?_, ?_, ?_⟩
  · intro msg parse
    rfl
  · intro text parse hp
    simp [analyzeNotesAndGenerateResources, hp]
  · intro text parse p hp hinv
    simp [analyzeNotesAndGenerateResources, hp, hinv]
  · intro db uid tt an e hne hf
    rw [postAnalyzeNotes_failure db uid tt an e hne hf]
    exact ⟨rfl, rfl⟩

/-- Witness for C6 (amended) at concrete inputs. -/
theorem analyzer_failure_reporting_witness :
    analyzeNotesAndGenerateResources (.apiError "down") (fun _ => none) = .failure "down" ∧
    analyzeNotesAndGenerateResources (.apiText "junk") (fun _ => none)
      = .success (fallbackData "junk") ∧
    (postAnalyzeNotes exDb1 true "u" none failAnalyzer).status = 500 :=
  ⟨analyzer_failure_reporting.1 "down" (fun _ => none),
   analyzer_failure_reporting.2.1 "junk" (fun _ => none) rfl,
   (analyzer_failure_reporting.2.2.2 exDb1 "u" none failAnalyzer "boom" (by decide) rfl).1⟩

/-! ### C5 — owner isolation -/

/-- C5.  A note created under owner A is never returned by `getAllNotes`
under a different owner B, and `getNoteById` under B with A's numeric id
yields the same not-found error as when no note with that id exists at all:
existence is not leaked across owners. -/
theorem owner_isolation (db : DB) (uidA uidB t c : String) (hwf : DBwf db)
    (hne : uidB ≠ uidA) :
    (createNote db uidA t c).1 ∉ getAllNotes (createNote db uidA t c).2 uidB ∧
    getNoteById (createNote db uidA t c).2 (createNote db uidA t c).1.note_id uidB
      = .error .notFound ∧
    (∀ (db0 : DB) (i : Nat) (u : String), (∀ m ∈ db0.notes, m.note_id ≠ i) →
      getNoteById db0 i u = .error DbError.notFound) := by
  refine ⟨?_, ?_, ?_⟩
  · intro hmem
    rw [mem_getAllNotes] at hmem
    have : uidA = uidB := hmem.2
    exact hne this.symm
  · unfold getNoteById
    have hnone : (createNote db uidA t c).2.notes.find?
        (noteMatches (createNote db uidA t c).1.note_id uidB) = none := by
      rw [List.find?_eq_none]
      intro x hx
      simp only [createNote, List.mem_append, List.mem_singleton] at hx
      rcases hx with hx | hx
      · have hlt := hwf.2 x hx
        simp only [createNote, noteMatches, Bool.and_eq_true, beq_iff_eq, not_and]
        intro h
        omega
      · subst hx
        simp only [noteMatches, Bool.and_eq_true, beq_iff_eq, not_and]
        intro _ h
        exact hne h.symm
    rw [hnone]
  · intro db0 i u hall
    unfold getNoteById
    have hnone : db0.notes.find? (noteMatches i u) = none := by
      rw [List.find?_eq_none]
      intro x hx
      simp only [noteMatches, Bool.and_eq_true, beq_iff_eq, not_and]
      intro h
      exact absurd h (hall x hx)
    rw [hnone]

/-- Witness for C5: owner `"v"` sees neither the listing nor the id of the
note owner `"u"` just created, and an id absent from an empty store yields
the same error. -/
theorem owner_isolation_witness :
    (createNote exDb1 "u" "s" "t").1 ∉ getAllNotes (createNote exDb1 "u" "s" "t").2 "v" ∧
    getNoteById (createNote exDb1 "u" "s" "t").2 (createNote exDb1 "u" "s" "t").1.note_id "v"
      = .error .notFound ∧
    getNoteById DB.empty 5 "v" = .error DbError.notFound :=
  ⟨(owner_isolation exDb1 "u" "v" "s" "t" (by decide) (by decide)).1,
   (owner_isolation exDb1 "u" "v" "s" "t" (by decide) (by decide)).2.1,
   (owner_isolation exDb1 "u" "v" "s" "t" (by decide) (by decide)).2.2 DB.empty 5 "v"
     (by decide)⟩

/-! ### C7 — listing order -/

/-- C7.  `getAllNotes` returns exactly the owner's notes, sorted newest
`last_updated` first; with no notes it returns the empty list rather than an
error; and after an update of one of the owner's notes the updated note is
the head of the next listing. -/
theorem listAll_ordering (db : DB) (uid : String) :
    List.Sorted newerEq (getAllNotes db uid) ∧
    (∀ n, n ∈ getAllNotes db uid ↔ n ∈ db.notes ∧ n.user_id = uid) ∧
    ((∀ n ∈ db.notes, n.user_id ≠ uid) → getAllNotes db uid = []) ∧
    (∀ (id : Nat) (t c : String) (n2 : Note) (db2 : DB), DBwf db →
      updateNote db id uid t c = .ok (n2, db2) →
      (getAllNotes db2 uid).head? = some n2) := by
  refine ⟨List.sorted_insertionSort newerEq _, fun n => mem_getAllNotes, ?_, ?_⟩
  · intro h
    unfold getAllNotes
    have hf : db.notes.filter (fun n => n.user_id == uid) = [] := by
      rw [List.filter_eq_nil_iff]
      intro a ha
      simpa using h a ha
    rw [hf]
    rfl
  · intro id t c n2 db2 hwf hupd
    unfold updateNote at hupd
    split at hupd
    case isFalse => simp at hupd
    case isTrue hany =>
      rw [Except.ok.injEq, Prod.mk.injEq] at hupd
      obtain ⟨hn2, hdb2⟩ := hupd
      subst hn2
      subst hdb2
      obtain ⟨x, hxmem, hxm⟩ := List.any_eq_true.mp hany
      have hxid : x.note_id = id ∧ x.user_id = uid := by
        simpa [noteMatches] using hxm
      have hfx : (if noteMatches id uid x then
          (⟨x.note_id, x.user_id, t, c, db.now⟩ : Note) else x)
            = ⟨id, uid, t, c, db.now⟩ := by
        simp [hxm, hxid.1, hxid.2]
      have hmemL : (⟨id, uid, t, c, db.now⟩ : Note) ∈
          getAllNotes
            { db with
                notes := db.notes.map (fun n =>
                  if noteMatches id uid n then ⟨n.note_id, n.user_id, t, c, db.now⟩ else n),
                now := db.now + 1 } uid := by
        rw [mem_getAllNotes]
        refine ⟨?_, rfl⟩
        rw [List.mem_map]
        exact ⟨x, hxmem, hfx⟩
      have hall : ∀ y ∈ getAllNotes
          { db with
              notes := db.notes.map (fun n =>
                if noteMatches id uid n then ⟨n.note_id, n.user_id, t, c, db.now⟩ else n),
              now := db.now + 1 } uid,
          y = (⟨id, uid, t, c, db.now⟩ : Note) ∨ y.last_updated < db.now := by
        intro y hy
        rw [mem_getAllNotes] at hy
        obtain ⟨hy1, _⟩ := hy
        rw [List.mem_map] at hy1
        obtain ⟨a, ha, hfa⟩ := hy1
        by_cases hma : noteMatches id uid a = true
        · left
          have haid : a.note_id = id ∧ a.user_id = uid := by
            simpa [noteMatches] using hma
          rw [← hfa]
          simp [hma, haid.1, haid.2]
        · right
          rw [← hfa]
          simp only [hma, Bool.false_eq_true, if_false]
          exact hwf.1 a ha
      have hsorted : List.Sorted newerEq (getAllNotes
          { db with
              notes := db.notes.map (fun n =>
                if noteMatches id uid n then ⟨n.note_id, n.user_id, t, c, db.now⟩ else n),
              now := db.now + 1 } uid) :=
        List.sorted_insertionSort newerEq _
      cases hL : getAllNotes
          { db with
              notes := db.notes.map (fun n =>
                if noteMatches id uid n then ⟨n.note_id, n.user_id, t, c, db.now⟩ else n),
              now := db.now + 1 } uid with
      | nil =>
        rw [hL] at hmemL
        cases hmemL
      | cons hd tl =>
        rw [hL] at hmemL hall hsorted
        have hhd : hd = ⟨id, uid, t, c, db.now⟩ := by
          rcases hall hd (List.mem_cons_self hd tl) with h | hlt
          · exact h
          · rcases List.mem_cons.mp hmemL with h | h
            · exact h.symm
            · have hrel : newerEq hd ⟨id, uid, t, c, db.now⟩ :=
                List.rel_of_sorted_cons hsorted _ h
              have : db.now ≤ hd.last_updated := hrel
              omega
        simp [hhd]

/-- Witness for C7 at the two-note store: the sorted listing and the
head-after-update fact at concrete values. -/
theorem listAll_ordering_witness :
    List.Sorted newerEq (getAllNotes exDb2 "u") ∧
    (getAllNotes exDb2upd "u").head? = some ⟨1, "u", "X", "Y", 2⟩ :=
  ⟨(listAll_ordering exDb2 "u").1,
   (listAll_ordering exDb2 "u").2.2.2 1 "X" "Y" ⟨1, "u", "X", "Y", 2⟩ exDb2upd
     (by decide) rfl⟩

theorem find?_append_of_none {p : Note → Bool} {l1 l2 : List Note}
    (h : ∀ x ∈ l1, p x = false) : (l1 ++ l2).find? p = l2.find? p := by
  induction l1 with
  | nil => rfl
  | cons a l ih =>
    have ha := h a (List.mem_cons_self a l)
    simp only [List.cons_append, List.find?, ha]
    exact ih (fun x hx => h x (List.mem_cons_of_mem a hx))

theorem find?_map_pres {f : Note → Note} {p : Note → Bool}
    (hp : ∀ n, p (f n) = p n) (l : List Note) :
    (l.map f).find? p = (l.find? p).map f := by
  induction l with
  | nil => rfl
  | cons a l ih =>
    by_cases ha : p a = true
    · simp only [List.map_cons, List.find?, hp a, ha]
      rfl
    · have ha' : p a = false := by
        cases hpa : p a
        · rfl
        · exact absurd hpa ha
      simp only [List.map_cons, List.find?, hp a, ha']
      exact ih

/-! ### C8 — create/read round trip -/

/-- C8.  Creating a note and reading it back by its assigned id under the
same owner returns the same title and content, with a `last_updated` no
earlier than the creation time. -/
theorem create_read_roundtrip (db : DB) (uid t c : String) (hwf : DBwf db) :
    getNoteById (createNote db uid t c).2 (createNote db uid t c).1.note_id uid
      = .ok (createNote db uid t c).1 ∧
    (createNote db uid t c).1.title = t ∧
    (createNote db uid t c).1.content = c ∧
    db.now ≤ (createNote db uid t c).1.last_updated := by
  refine ⟨?_, rfl, rfl, Nat.le_refl _⟩
  have h1 : ∀ x ∈ db.notes, noteMatches db.nextNoteId uid x = false := by
    intro x hx
    have hlt := hwf.2 x hx
    have hne : (x.note_id == db.nextNoteId) = false := by
      simp only [beq_eq_false_iff_ne, ne_eq]
      omega
    simp [noteMatches, hne]
  show getNoteById
      { db with
          notes := db.notes ++ [⟨db.nextNoteId, uid, t, c, db.now⟩],
          nextNoteId := db.nextNoteId + 1, now := db.now + 1 }
      db.nextNoteId uid = .ok ⟨db.nextNoteId, uid, t, c, db.now⟩
  unfold getNoteById
  rw [find?_append_of_none h1]
  simp [List.find?, noteMatches]

/-- Witness for C8: round trip of a concrete note for owner `"v"`. -/
theorem create_read_roundtrip_witness :
    getNoteById (createNote exDb1 "v" "a" "b").2 (createNote exDb1 "v" "a" "b").1.note_id "v"
      = .ok (createNote exDb1 "v" "a" "b").1 ∧
    (createNote exDb1 "v" "a" "b").1.title = "a" ∧
    (createNote exDb1 "v" "a" "b").1.content = "b" ∧
    exDb1.now ≤ (createNote exDb1 "v" "a" "b").1.last_updated :=
  create_read_roundtrip exDb1 "v" "a" "b" (by decide)

theorem update_then_get (db : DB) (uid : String) (id : Nat) (ex : Note) (t c : String)
    (hfind : db.notes.find? (noteMatches id uid) = some ex) :
    updateNote db id uid t c
      = .ok (⟨id, uid, t, c, db.now⟩,
          { db with
              notes := db.notes.map (fun n =>
                if noteMatches id uid n then ⟨n.note_id, n.user_id, t, c, db.now⟩ else n),
              now := db.now + 1 }) ∧
    getNoteById
        { db with
            notes := db.notes.map (fun n =>
              if noteMatches id uid n then ⟨n.note_id, n.user_id, t, c, db.now⟩ else n),
            now := db.now + 1 } id uid
      = .ok ⟨id, uid, t, c, db.now⟩ := by
  have hp : noteMatches id uid ex = true := List.find?_some hfind
  have hmem : ex ∈ db.notes := List.mem_of_find?_eq_some hfind
  have hids : ex.note_id = id ∧ ex.user_id = uid := by
    simpa [noteMatches] using hp
  have hany : db.notes.any (noteMatches id uid) = true :=
    List.any_eq_true.mpr ⟨ex, hmem, hp⟩
  constructor
  · simp [updateNote, hany]
  · have hpres : ∀ n, noteMatches id uid
        (if noteMatches id uid n then (⟨n.note_id, n.user_id, t, c, db.now⟩ : Note)
         else n) = noteMatches id uid n := by
      intro n
      by_cases h : noteMatches id uid n = true
      · simp only [h, if_true]
        exact h
      · simp only [h, Bool.false_eq_true, if_false]
    have hfex : (if noteMatches id uid ex then
        (⟨ex.note_id, ex.user_id, t, c, db.now⟩ : Note) else ex)
          = ⟨id, uid, t, c, db.now⟩ := by
      rw [if_pos hp, hids.1, hids.2]
    unfold getNoteById
    rw [find?_map_pres hpres, hfind]
    show Except.ok (if noteMatches id uid ex then
        (⟨ex.note_id, ex.user_id, t, c, db.now⟩ : Note) else ex)
      = Except.ok (⟨id, uid, t, c, db.now⟩ : Note)
    rw [hfex]

/-! ### C9 — PATCH accepts and persists empty strings -/

/-- C9.  For an existing owned note, a PATCH supplying the empty string for
the title (or for the content) succeeds — only the string-type check applies
on this path — and persists the empty value, while the non-empty validation
on the PUT and create paths rejects the same empty string with 400 and
leaves the store unchanged. -/
theorem patch_persists_empty (db : DB) (uid : String) (id : Nat) (ex : Note)
    (hex : getNoteById db id uid = .ok ex) :
    (patchNotes db uid id (some (.str "")) none).status = 200 ∧
    getNoteById (patchNotes db uid id (some (.str "")) none).db id uid
      = .ok ⟨id, uid, "", ex.content, db.now⟩ ∧
    (patchNotes db uid id none (some (.str ""))).status = 200 ∧
    getNoteById (patchNotes db uid id none (some (.str ""))).db id uid
      = .ok ⟨id, uid, ex.title, "", db.now⟩ ∧
    putNotes db uid id "" ex.content = ⟨400, db⟩ ∧
    postNotes db true uid "" ex.content = ⟨400, db, 0, false⟩ := by
  have hfind : db.notes.find? (noteMatches id uid) = some ex := by
    unfold getNoteById at hex
    split at hex
    case h_1 a heq =>
      rw [heq]
      rw [Except.ok.injEq] at hex
      rw [hex]
    case h_2 => simp at hex
  have k1 := update_then_get db uid id ex "" ex.content hfind
  have k2 := update_then_get db uid id ex ex.title "" hfind
  have hpatch1 : patchNotes db uid id (some (.str "")) none =
      ⟨200,
       { db with
           notes := db.notes.map (fun n =>
             if noteMatches id uid n then ⟨n.note_id, n.user_id, "", ex.content, db.now⟩
             else n),
           now := db.now + 1 }⟩ := by
    simp [patchNotes, hex, k1.1]
  have hpatch2 : patchNotes db uid id none (some (.str "")) =
      ⟨200,
       { db with
           notes := db.notes.map (fun n =>
             if noteMatches id uid n then ⟨n.note_id, n.user_id, ex.title, "", db.now⟩
             else n),
           now := db.now + 1 }⟩ := by
    simp [patchNotes, hex, k2.1]
  have hemp : "".isEmpty = true := rfl
  exact ⟨by rw [hpatch1], by rw [hpatch1]; exact k1.2,
    by rw [hpatch2], by rw [hpatch2]; exact k2.2,
    by simp [putNotes, hemp], by simp [postNotes, hemp]⟩

/-- Witness for C9 at the one-note store: PATCHing an empty title (resp.
content) onto note 1 succeeds and stores the empty value, while PUT and
create reject it. -/
theorem patch_persists_empty_witness :
    (patchNotes exDb1 "u" 1 (some (.str "")) none).status = 200 ∧
    getNoteById (patchNotes exDb1 "u" 1 (some (.str "")) none).db 1 "u"
      = .ok ⟨1, "u", "", "world", exDb1.now⟩ ∧
    (patchNotes exDb1 "u" 1 none (some (.str ""))).status = 200 ∧
    getNoteById (patchNotes exDb1 "u" 1 none (some (.str ""))).db 1 "u"
      = .ok ⟨1, "u", "hello", "", exDb1.now⟩ ∧
    putNotes exDb1 "u" 1 "" "world" = ⟨400, exDb1⟩ ∧
    postNotes exDb1 true "u" "" "world" = ⟨400, exDb1, 0, false⟩ :=
  patch_persists_empty exDb1 "u" 1 ⟨1, "u", "hello", "world", 0⟩ rfl

end MindPath
